import Mathlib

/-!
Shallow embedding of the resume parsing, job-requirement parsing and candidate
scoring code of the Resumify backend
(src/Backend/app/services/cv_parser.py, src/Backend/app/services/nlp_service.py,
src/Backend/backup/app/services/cv_analyzer.py), with theorems settling the
frozen claims about this code.

Strings are modelled as lists of characters (the inputs handled by this code
are ASCII); Python floats are modelled as exact rationals; Python re matching
is embedded as explicit character scanners specialised to the literal patterns
appearing in the source. Python exceptions are modelled with Except: a value
Except.error e is an exception propagating to the caller, Except.ok r a
normal return.
-/

/-- ASCII lower-casing of one character, the model of Python str.lower on the
ASCII inputs handled by this code. -/
def lowerChar (c : Char) : Char :=
  if c = 'A' then 'a' else if c = 'B' then 'b' else if c = 'C' then 'c'
  else if c = 'D' then 'd' else if c = 'E' then 'e' else if c = 'F' then 'f'
  else if c = 'G' then 'g' else if c = 'H' then 'h' else if c = 'I' then 'i'
  else if c = 'J' then 'j' else if c = 'K' then 'k' else if c = 'L' then 'l'
  else if c = 'M' then 'm' else if c = 'N' then 'n' else if c = 'O' then 'o'
  else if c = 'P' then 'p' else if c = 'Q' then 'q' else if c = 'R' then 'r'
  else if c = 'S' then 's' else if c = 'T' then 't' else if c = 'U' then 'u'
  else if c = 'V' then 'v' else if c = 'W' then 'w' else if c = 'X' then 'x'
  else if c = 'Y' then 'y' else if c = 'Z' then 'z' else c

/-- ASCII upper-casing of one character (used by the model of Python
str.title). -/
def upperChar (c : Char) : Char :=
  if c = 'a' then 'A' else if c = 'b' then 'B' else if c = 'c' then 'C'
  else if c = 'd' then 'D' else if c = 'e' then 'E' else if c = 'f' then 'F'
  else if c = 'g' then 'G' else if c = 'h' then 'H' else if c = 'i' then 'I'
  else if c = 'j' then 'J' else if c = 'k' then 'K' else if c = 'l' then 'L'
  else if c = 'm' then 'M' else if c = 'n' then 'N' else if c = 'o' then 'O'
  else if c = 'p' then 'P' else if c = 'q' then 'Q' else if c = 'r' then 'R'
  else if c = 's' then 'S' else if c = 't' then 'T' else if c = 'u' then 'U'
  else if c = 'v' then 'V' else if c = 'w' then 'W' else if c = 'x' then 'X'
  else if c = 'y' then 'Y' else if c = 'z' then 'Z' else c

/-- Model of Python str.lower over a character list. -/
def lowerL (cs : List Char) : List Char := cs.map lowerChar

/-- Regex word character, Python backslash-w restricted to ASCII:
letters, digits and underscore. -/
def isWordChar (c : Char) : Bool := c.isAlpha || c.isDigit || c = '_'

/-- Whitespace test (Python str whitespace on the ASCII inputs). -/
def isWS (c : Char) : Bool := c.isWhitespace

/-- Drop trailing whitespace. -/
def trimRightCL (cs : List Char) : List Char :=
  ((cs.reverse).dropWhile isWS).reverse

/-- Model of Python str.strip: drop leading and trailing whitespace. -/
def trimCL (cs : List Char) : List Char :=
  trimRightCL (cs.dropWhile isWS)

/-- Is the first list an initial segment of the second one. -/
def leadsWith : List Char → List Char → Bool
  | [], _ => true
  | _ :: _, [] => false
  | a :: as, b :: bs => a = b && leadsWith as bs

/-- Model of the Python substring operator needle in hay. -/
def pyInL (needle : List Char) : List Char → Bool
  | [] => needle.isEmpty
  | c :: t => leadsWith needle (c :: t) || pyInL needle t

/-- Substring operator on strings. -/
def pyInS (needle hay : String) : Bool := pyInL needle.data hay.data

/-- Model of Python list(set(l)) for the purposes of this development:
distinct elements, first occurrence kept. Python set order is unspecified;
the claims below only use cardinality and membership of such lists. -/
def pyDedup {α : Type} [DecidableEq α] : List α → List α
  | [] => []
  | a :: t => a :: (pyDedup t).filter (fun b => b ≠ a)

/-- Split a character list on a separator character (model of Python
str.split with a one-character separator). -/
def splitChar (sep : Char) : List Char → List (List Char)
  | [] => [[]]
  | c :: t =>
    match splitChar sep t with
    | [] => if c = sep then [[], []] else [[c]]
    | r :: rs => if c = sep then [] :: r :: rs else (c :: r) :: rs

/-- Model of Python str.split(sep, 1): the part before the first separator
and the part after it (empty second part when the separator is absent). -/
def splitFirst (sep : Char) : List Char → (List Char × List Char)
  | [] => ([], [])
  | c :: t =>
    if c = sep then ([], t)
    else
      let p := splitFirst sep t
      (c :: p.1, p.2)

/-- Helper for pySplitWS carrying the (reversed) current token. -/
def splitWSgo (cur : List Char) : List Char → List (List Char)
  | [] => if cur.isEmpty then [] else [cur.reverse]
  | c :: t =>
    if isWS c then
      if cur.isEmpty then splitWSgo [] t else cur.reverse :: splitWSgo [] t
    else splitWSgo (c :: cur) t

/-- Model of Python str.split() with no argument: split on whitespace runs,
discarding empty pieces. -/
def pySplitWS (cs : List Char) : List (List Char) := splitWSgo [] cs

/-- Join a list of words with single spaces (Python " ".join). -/
def joinSpace : List (List Char) → List Char
  | [] => []
  | [w] => w
  | w :: (x :: t) => w ++ ' ' :: joinSpace (x :: t)

/-- Numeric value of a digit string. -/
def natOfDigits (ds : List Char) : Nat :=
  ds.foldl (fun n c => 10 * n + (c.toNat - 48)) 0

/-- Maximum of a rational list (none on the empty list), the model of
Python max on a nonempty list. -/
def listMaxQ : List ℚ → Option ℚ
  | [] => none
  | q :: t =>
    match listMaxQ t with
    | none => some q
    | some m => some (max q m)

/-- Maximum of an integer list. -/
def listMaxZ : List ℤ → Option ℤ
  | [] => none
  | q :: t =>
    match listMaxZ t with
    | none => some q
    | some m => some (max q m)

/-- Minimum of an integer list. -/
def listMinZ : List ℤ → Option ℤ
  | [] => none
  | q :: t =>
    match listMinZ t with
    | none => some q
    | some m => some (min q m)

/-- Rebuild a string from a character list. -/
def strOf (cs : List Char) : String := String.mk cs

/-! ## Document extraction and the top level resume parser
(CVParser.parse_cv_file, CVParser._extract_text_from_file in
src/Backend/app/services/cv_parser.py). -/

/-- Model of Python pathlib Path(p).suffix: the extension of the last path
component, from its last dot, empty when the dot is leading or trailing. -/
def pathSuffix (p : String) : String :=
  let name := (splitChar '/' p.data).getLastD []
  match ((name.enum.filter (fun q => q.2 = '.')).map Prod.fst).getLast? with
  | some i => if 0 < i ∧ i < name.length - 1 then strOf (name.drop i) else ""
  | none => ""

/-- The structured fields produced by CVParser._parse_text_content: the dict
keys personal_info, education, work_experience, skills (technical and soft),
certifications, languages, total_experience_years. -/
structure ParsedContent where
  personal_info : List (String × String)
  education : List (String × String × Option ℤ)
  work_experience : List (String × String × Option ℤ × Option ℤ × String × ℤ)
  technical_skills : List String
  soft_skills : List String
  certifications : List (String × String × Option ℤ)
  languages : List (String × String)
  total_experience_years : ℚ
deriving DecidableEq

/-- The dict returned by CVParser.parse_cv_file: the structured fields plus
raw_text, parsing_status and (on failure) parsing_error. -/
structure CVRecord extends ParsedContent where
  raw_text : String
  parsing_status : String
  parsing_error : Option String
deriving DecidableEq

/-- The failure dict built in the except branch of CVParser.parse_cv_file
(lines 83 to 94 of cv_parser.py). -/
def failedCVRecord (e : String) : CVRecord :=
  { raw_text := "", parsing_status := "failed", parsing_error := some e,
    personal_info := [], education := [], work_experience := [],
    technical_skills := [], soft_skills := [], certifications := [],
    languages := [], total_experience_years := 0 }

/-- One input file: its path plus the outcomes of the two external library
extraction routines on its bytes (PyPDF2 for _extract_from_pdf, python-docx
for _extract_from_docx); an error value is an exception raised by the
routine. -/
structure FileInput where
  path : String
  pdfExtract : Except String String
  docxExtract : Except String String

/-- CVParser._extract_text_from_file: dispatch on the lower-cased path
suffix; unsupported extensions raise
ValueError(f"Unsupported file format: ..."). -/
def extract_text_from_file (f : FileInput) : Except String String :=
  let ext := strOf (lowerL (pathSuffix f.path).data)
  if ext = ".pdf" then f.pdfExtract
  else if ext = ".doc" ∨ ext = ".docx" then f.docxExtract
  else Except.error ("Unsupported file format: " ++ ext)

/-- CVParser.parse_cv_file: the whole body runs inside a try block whose
except clause catches every exception and returns the failure dict. The
structured field extraction (_parse_text_content, which calls into spaCy and
the regex helpers) is passed as a fallible oracle, since the claims about
this entry point quantify over its possible outcomes. An empty extracted
text raises ValueError("Could not extract text from file") inside the try
block. -/
def parse_cv_file (f : FileInput)
    (parseContent : String → Except String ParsedContent) :
    Except String CVRecord :=
  match extract_text_from_file f with
  | Except.error e => Except.ok (failedCVRecord e)
  | Except.ok raw =>
    if raw = "" then Except.ok (failedCVRecord "Could not extract text from file")
    else
      match parseContent raw with
      | Except.error e => Except.ok (failedCVRecord e)
      | Except.ok pc =>
        Except.ok { toParsedContent := pc, raw_text := raw,
                    parsing_status := "completed", parsing_error := none }

/-! ## Candidate scoring engine (CVAnalyzer in
src/Backend/backup/app/services/cv_analyzer.py). -/

/-- Python str.lower on strings. -/
def pyLowerS (s : String) : String := strOf (lowerL s.data)

/-- The value returned by CVAnalyzer._analyze_skills_match: the score and
the dict entries matched, missing and details (keyword_matches,
predefined_matches, total_job_terms, match_rate). -/
structure SkillsMatchResult where
  score : ℚ
  matched : List String
  missing : List String
  keyword_matches : Nat
  predefined_matches : Nat
  total_job_terms : Nat
  match_rate : ℚ
deriving DecidableEq

/-- CVAnalyzer._analyze_skills_match, lines 192 to 262 of
backup/app/services/cv_analyzer.py. Inputs: the candidate raw text and
technical skill list (candidate_info), the job description, required and
preferred skill lists (job_requirements). The keyword mining helper
_extract_job_keywords is passed as the function argument extractJobKeywords,
exactly as the method receives it through self; the claims about this score
do not constrain its internals. -/
def analyze_skills_match (extractJobKeywords : String → List String)
    (raw_text : String) (technical_skills : List String)
    (description : String) (required_skills preferred_skills : List String) :
    SkillsMatchResult :=
  let cv_text := pyLowerS raw_text
  let job_description := pyLowerS description
  let job_keywords := extractJobKeywords job_description
  let matched_keywords := job_keywords.filter (fun k => pyInS k cv_text)
  let candidate_skills := technical_skills.map pyLowerS
  let required_low := required_skills.map pyLowerS
  let preferred_low := preferred_skills.map pyLowerS
  let matched_predefined := (required_low ++ preferred_low).filter
    (fun s => s ∈ candidate_skills || pyInS s cv_text)
  let all_matches := pyDedup (matched_keywords ++ matched_predefined)
  let total_job_terms :=
    job_keywords.length + required_low.length + preferred_low.length
  let score : ℚ :=
    if total_job_terms = 0 then 30
    else
      let match_rate : ℚ := (all_matches.length : ℚ) / (max total_job_terms 1 : ℚ)
      let keyword_boost : ℚ := min 30 ((matched_keywords.length : ℚ) * 2)
      min 100 (match_rate * 60 + keyword_boost + 15)
  { score := score,
    matched := all_matches,
    missing := required_low.filter (fun s => s ∉ all_matches),
    keyword_matches := matched_keywords.length,
    predefined_matches := matched_predefined.length,
    total_job_terms := total_job_terms,
    match_rate := if total_job_terms > 0
      then (all_matches.length : ℚ) / (max total_job_terms 1 : ℚ) else 0 }

/-- CVAnalyzer._analyze_experience_match, lines 349 to 390 of
backup/app/services/cv_analyzer.py: the experience score as a function of
the candidate years, the minimum required years and the optional maximum.
The Python condition (max_required and candidate_years > max_required) is
truthiness based: a stored maximum of 0 behaves like an absent maximum. -/
def analyze_experience_score (candidate_years : ℚ) (min_required : ℤ)
    (max_required : Option ℤ) : ℚ :=
  if min_required = 0 then 40
  else if candidate_years ≥ (min_required : ℚ) then
    match max_required with
    | some m => if m ≠ 0 ∧ candidate_years > (m : ℚ) then 85 else 100
    | none => 100
  else
    if min_required > 0 then
      max 40 (candidate_years / (min_required : ℚ) * 80)
    else 60

/-! ## Batch analysis and statistics (CVAnalyzer.analyze_candidates_for_job
and CVAnalyzer.get_analysis_statistics). -/

/-- The fields of a candidate row read by the batch analyzer. -/
structure Candidate where
  id : ℤ
deriving DecidableEq

/-- The fields of a job posting row read by the batch analyzer. -/
structure JobPostingRow where
  id : ℤ
  title : String
deriving DecidableEq

/-- The dict produced by CVAnalyzer._analyze_single_candidate for one
candidate (the success case of the per-candidate try block). -/
structure SingleAnalysis where
  overall_score : ℚ
  match_status : String
  skill_match_score : ℚ
  education_match_score : ℚ
  experience_match_score : ℚ
  soft_skills_score : ℚ
  matched_skills : List String
  missing_skills : List String
  matched_education : List String
  experience_analysis : List (String × ℚ)
  ai_summary : String
  strengths : List String
  concerns : List String
  recommendations : List String
deriving DecidableEq

/-- The pydantic schema CVAnalysisCreate
(src/Backend/app/schemas/cv_analysis.py, lines 16 to 29), with its field
defaults; Optional fields left unset by a caller are none. -/
structure CVAnalysisCreate where
  candidate_id : ℤ
  job_posting_id : ℤ
  overall_score : ℚ
  match_status : String
  skill_match_score : ℚ := 0
  education_match_score : ℚ := 0
  experience_match_score : ℚ := 0
  soft_skills_score : ℚ := 0
  matched_skills : List String := []
  missing_skills : List String := []
  matched_education : List String := []
  experience_analysis : Option (List (String × ℚ)) := none
  ai_summary : Option String := none
  strengths : List String := []
  concerns : List String := []
  recommendations : List String := []
  processing_time_ms : Option ℤ := none
deriving DecidableEq

/-- CVAnalyzer.analyze_candidates_for_job, lines 35 to 101 of
backup/app/services/cv_analyzer.py. The per-candidate work
_analyze_single_candidate (a fallible computation: database access, NLP) is
the oracle analyze; the measured wall clock duration for a successful
candidate is the oracle timeOf. Each loop iteration appends exactly one
result: the full analysis on success, and on any exception the degraded
record built in the except clause. -/
def analyze_candidates_for_job (candidates : List Candidate)
    (job_posting : JobPostingRow)
    (analyze : Candidate → Except String SingleAnalysis)
    (timeOf : Candidate → ℤ) : List CVAnalysisCreate :=
  candidates.map (fun c =>
    match analyze c with
    | Except.ok a =>
      { candidate_id := c.id, job_posting_id := job_posting.id,
        overall_score := a.overall_score, match_status := a.match_status,
        skill_match_score := a.skill_match_score,
        education_match_score := a.education_match_score,
        experience_match_score := a.experience_match_score,
        soft_skills_score := a.soft_skills_score,
        matched_skills := a.matched_skills,
        missing_skills := a.missing_skills,
        matched_education := a.matched_education,
        experience_analysis := some a.experience_analysis,
        ai_summary := some a.ai_summary,
        strengths := a.strengths, concerns := a.concerns,
        recommendations := a.recommendations,
        processing_time_ms := some (timeOf c) }
    | Except.error e =>
      { candidate_id := c.id, job_posting_id := job_posting.id,
        overall_score := 0, match_status := "rejected",
        ai_summary := some ("Analysis failed: " ++ e) })

/-- The fields of a stored CVAnalysis row read by
CVAnalyzer.get_analysis_statistics. -/
structure AnalysisRow where
  overall_score : ℚ
  match_status : String
deriving DecidableEq

/-- The dict returned by CVAnalyzer.get_analysis_statistics; the
average_score key is absent (none) in the empty-input early return. -/
structure StatsResult where
  total : Nat
  shortlisted : Nat
  rejected : Nat
  average_score : Option ℚ
deriving DecidableEq

/-- Round half to even on rationals, the model of the Python builtin round
applied to the exact value (binary floating point representation artifacts
are not modelled). -/
def roundHalfEven (q : ℚ) : ℤ :=
  let n := ⌊q⌋
  let d := q - (n : ℚ)
  if d < 1 / 2 then n
  else if 1 / 2 < d then n + 1
  else if n % 2 = 0 then n else n + 1

/-- Python round(q, 2). -/
def round2 (q : ℚ) : ℚ := ((roundHalfEven (q * 100) : ℚ)) / 100

/-- CVAnalyzer.get_analysis_statistics, lines 476 to 492 of
backup/app/services/cv_analyzer.py. On an empty list it returns early with
only the keys total, shortlisted and rejected. -/
def get_analysis_statistics (analyses : List AnalysisRow) : StatsResult :=
  if analyses = [] then
    { total := 0, shortlisted := 0, rejected := 0, average_score := none }
  else
    let total := analyses.length
    let shortlisted :=
      (analyses.filter (fun a => a.match_status = "shortlisted")).length
    let rejected :=
      (analyses.filter (fun a => a.match_status = "rejected")).length
    let avg_score : ℚ :=
      if total > 0
      then (analyses.map (fun a => a.overall_score)).sum / (total : ℚ)
      else 0
    { total := total, shortlisted := shortlisted, rejected := rejected,
      average_score := some (round2 avg_score) }

/-! ## Total experience years (CVParser._calculate_experience_years and
CVParser._extract_all_years in src/Backend/app/services/cv_parser.py). -/

/-- Match a literal at the head of the input, returning the remainder. -/
def matchLit (lit cs : List Char) : Option (List Char) :=
  if leadsWith lit cs then some (cs.drop lit.length) else none

/-- Greedy backslash-s star. -/
def dropWS (cs : List Char) : List Char := cs.dropWhile isWS

/-- Matcher at one position for the first experience pattern
(\d+)\s*years?\s*(of\s*)?experience of _calculate_experience_years; returns
the captured digit group and the remainder after the whole match. The
greedy handling of the optional pieces is equivalent to the backtracking
regex because each following literal starts with a character the optional
piece can never absorb. -/
def expP1At (cs : List Char) : Option (List Char × List Char) :=
  let ds := cs.takeWhile (fun c => c.isDigit)
  let r1 := cs.dropWhile (fun c => c.isDigit)
  if ds.isEmpty then none
  else
    match matchLit "year".data (dropWS r1) with
    | none => none
    | some r3 =>
      let r4 := match r3 with
        | 's' :: t => t
        | _ => r3
      let r5 := dropWS r4
      let r6 := match matchLit "of".data r5 with
        | some r => dropWS r
        | none => r5
      match matchLit "experience".data r6 with
      | some r7 => some (ds, r7)
      | none => none

/-- Matcher for the second experience pattern
experience\s*:\s*(\d+)\s*years? -/
def expP2At (cs : List Char) : Option (List Char × List Char) :=
  match matchLit "experience".data cs with
  | none => none
  | some r1 =>
    match dropWS r1 with
    | ':' :: r2 =>
      let r3 := dropWS r2
      let ds := r3.takeWhile (fun c => c.isDigit)
      let r4 := r3.dropWhile (fun c => c.isDigit)
      if ds.isEmpty then none
      else
        match matchLit "year".data (dropWS r4) with
        | none => none
        | some r5 =>
          match r5 with
          | 's' :: t => some (ds, t)
          | _ => some (ds, r5)
    | _ => none

/-- Matcher for the third experience pattern
(\d+)\+?\s*years?\s*experience -/
def expP3At (cs : List Char) : Option (List Char × List Char) :=
  let ds := cs.takeWhile (fun c => c.isDigit)
  let r1 := cs.dropWhile (fun c => c.isDigit)
  if ds.isEmpty then none
  else
    let r2 := match r1 with
      | '+' :: t => t
      | _ => r1
    match matchLit "year".data (dropWS r2) with
    | none => none
    | some r3 =>
      let r4 := match r3 with
        | 's' :: t => t
        | _ => r3
      match matchLit "experience".data (dropWS r4) with
      | some r5 => some (ds, r5)
      | none => none

/-- Non-overlapping left-to-right findall driver: try the matcher at every
position, resuming after the end of each match. Every matcher above
consumes at least one character on success, so fuel equal to the input
length plus one reproduces the Python re.findall semantics exactly. -/
def scanAll (pAt : List Char → Option (List Char × List Char)) :
    Nat → List Char → List (List Char)
  | 0, _ => []
  | _, [] => []
  | fuel + 1, c :: t =>
    match pAt (c :: t) with
    | some (cap, rest) => cap :: scanAll pAt fuel rest
    | none => scanAll pAt fuel t

/-- findall of the pattern \b(19|20)\d{2}\b over the raw text, as used by
CVParser._extract_all_years. re.findall with a capturing group returns the
captured group, so each hit contributes only the two leading digits. The
option argument carries the character before the current position for the
left word boundary; every step consumes at least one character, so fuel
equal to the input length plus one reproduces the findall semantics. -/
def yearGroupScan : Nat → Option Char → List Char → List (List Char)
  | 0, _, _ => []
  | _, _, [] => []
  | fuel + 1, prev, d1 :: rest1 =>
    let okLeft := match prev with
      | some p => !isWordChar p
      | none => true
    match rest1 with
    | d2 :: d3 :: d4 :: rest =>
      if okLeft && ((d1 = '1' && d2 = '9') || (d1 = '2' && d2 = '0'))
          && d3.isDigit && d4.isDigit
          && (match rest with | [] => true | r :: _ => !isWordChar r) then
        [d1, d2] :: yearGroupScan fuel (some d4) rest
      else yearGroupScan fuel (some d1) rest1
    | _ => yearGroupScan fuel (some d1) rest1

/-- CVParser._extract_all_years: int applied to each captured group of the
year pattern (hence the values 19 and 20, not full years). -/
def extract_all_years (text : String) : List ℤ :=
  (yearGroupScan (text.data.length + 1) none text.data).map
    (fun ds => (natOfDigits ds : ℤ))

/-- CVParser._calculate_experience_years, lines 640 to 666 of cv_parser.py:
the maximum over all explicit experience phrases found in the lower-cased
text; when none match, the span between the maximum and minimum of
_extract_all_years over the raw text when that list has at least two
entries; otherwise 0.0. -/
def calculate_experience_years (text : String) : ℚ :=
  let lt := lowerL text.data
  let years : List ℚ :=
    (scanAll expP1At (lt.length + 1) lt
      ++ scanAll expP2At (lt.length + 1) lt
      ++ scanAll expP3At (lt.length + 1) lt).map
      (fun ds => (natOfDigits ds : ℚ))
  match listMaxQ years with
  | some m => m
  | none =>
    let all_years := extract_all_years text
    if all_years.length ≥ 2 then
      match listMaxZ all_years, listMinZ all_years with
      | some mx, some mn => ((mx - mn : ℤ) : ℚ)
      | _, _ => 0
    else 0

/-! ## NLP service (NLPService in src/Backend/app/services/nlp_service.py):
whole word skill mention test and job requirement parsing. -/

/-- Is the character at index i of cs a regex word character (out of range
counts as not a word character). -/
def wordAt (cs : List Char) (i : Nat) : Bool :=
  match cs.get? i with
  | some c => isWordChar c
  | none => false

/-- Zero width backslash-b test of the Python re module at position i:
exactly one side of the position is a word character. -/
def boundAt (cs : List Char) (i : Nat) : Bool :=
  (decide (0 < i) && wordAt cs (i - 1)) != wordAt cs i

/-- One position of the search for the pattern
backslash-b literal backslash-b with re.IGNORECASE: the pattern literal is
the lower-cased skill, and case folding the text window models the
case-insensitive flag. -/
def matchAtCI (cs sp : List Char) (i : Nat) : Bool :=
  boundAt cs i && (lowerL ((cs.drop i).take sp.length) == sp)
    && boundAt cs (i + sp.length)

/-- NLPService._is_skill_mentioned, lines 510 to 514 of nlp_service.py:
re.search of the word bounded, escaped, lower-cased skill over the text,
case-insensitively. -/
def is_skill_mentioned (text skill : String) : Bool :=
  (List.range (text.data.length + 1)).any
    (fun i => matchAtCI text.data (lowerL skill.data) i)

/-- The skill databases held by an NLPService instance: the flattened
technical skill list and the soft skill list (bulk declarative data in
NLPService.__init__); the functions below are proved for every database. -/
structure NLPService where
  all_technical_skills : List String
  soft_skills_db : List String

/-- The required_indicators list of NLPService._is_skill_required. -/
def requiredIndicators : List String :=
  ["required", "must", "essential", "mandatory", "need", "necessary",
   "should have", "should be", "proficient"]

/-- The preferred_indicators list of NLPService._is_skill_required. -/
def preferredIndicators : List String :=
  ["preferred", "nice to have", "bonus", "plus", "advantage",
   "would be great", "ideal", "desirable"]

/-- NLPService._is_skill_required, lines 522 to 547 of nlp_service.py:
preferred indicators are checked first and win; with no indicator in the
context the skill defaults to required. -/
def is_skill_required (context : String) : Bool :=
  let cl := pyLowerS context
  if preferredIndicators.any (fun ind => pyInS ind cl) then false
  else if requiredIndicators.any (fun ind => pyInS ind cl) then true
  else true

/-- NLPService._extract_technical_skills, lines 349 to 363 of
nlp_service.py. The context window extraction _get_skill_context is passed
as the function argument getContext; the claims below hold for every such
function. -/
def extract_technical_skills (svc : NLPService)
    (getContext : String → String → String) (text : String)
    (required : Bool) : List String :=
  svc.all_technical_skills.filter (fun skill =>
    is_skill_mentioned text skill
      && (required == is_skill_required (getContext text skill)))

/-- NLPService._extract_soft_skills, lines 365 to 373 of nlp_service.py. -/
def extract_soft_skills (svc : NLPService) (text : String) : List String :=
  svc.soft_skills_db.filter (fun skill => is_skill_mentioned text skill)

/-- The ParsedJobRequirements schema returned by
NLPService.parse_job_requirements. -/
structure ParsedJobRequirements where
  required_skills : List String
  preferred_skills : List String
  education_requirements : List String
  experience_requirements : List String
  soft_skills : List String
  min_experience_years : ℤ
  max_experience_years : Option ℤ
deriving DecidableEq

/-- The helper methods of NLPService called by parse_job_requirements whose
internals no claim constrains: _get_skill_context,
_extract_education_requirements, _extract_experience_requirements and
_extract_experience_years; they are carried as plain functions and every
theorem below holds for all of them. -/
structure JDHelpers where
  getContext : String → String → String
  extractEducation : String → List String
  extractExperienceReqs : String → List String
  extractExperienceYears : String → ℤ × Option ℤ

/-- NLPService.parse_job_requirements, lines 315 to 347 of nlp_service.py.
The final clean-up lines are
required_skills = list(set(required_skills)) and
preferred_skills = list(set(preferred_skills) - set(required_skills)). -/
def parse_job_requirements (svc : NLPService) (hp : JDHelpers)
    (job_description : String) : ParsedJobRequirements :=
  let text := pyLowerS job_description
  let required0 := extract_technical_skills svc hp.getContext text true
  let preferred0 := extract_technical_skills svc hp.getContext text false
  let years := hp.extractExperienceYears text
  { required_skills := pyDedup required0,
    preferred_skills := (pyDedup preferred0).filter (fun s => s ∉ required0),
    education_requirements := hp.extractEducation text,
    experience_requirements := hp.extractExperienceReqs text,
    soft_skills := extract_soft_skills svc text,
    min_experience_years := years.1,
    max_experience_years := years.2 }

/-! ## Candidate name extraction (CVParser.extract_candidate_name, lines
684 to 841 of src/Backend/app/services/cv_parser.py). -/

/-- Model of Python str.title on ASCII text: a letter following a letter is
lower-cased, a letter following a non-letter (or the start) is upper-cased. -/
def pyTitleGo (prevAlpha : Bool) : List Char → List Char
  | [] => []
  | c :: t =>
    (if c.isAlpha then (if prevAlpha then lowerChar c else upperChar c) else c)
      :: pyTitleGo c.isAlpha t

/-- Python str.title. -/
def pyTitle (cs : List Char) : List Char := pyTitleGo false cs

/-- Python str.isupper on ASCII text: at least one letter and no lower-case
letter. -/
def pyIsUpper (cs : List Char) : Bool :=
  cs.any (fun c => c.isAlpha) && cs.all (fun c => !c.isLower)

/-- Model of re.sub(rf"\s+keyword$", "", line, re.IGNORECASE).strip() as
used in both name-cleaning loops: when the line ends with the keyword
(case-insensitively) preceded by at least one whitespace character, the
keyword and the preceding whitespace run are removed; the result is
stripped either way. The lines fed to this function never end in a newline,
so the end-of-string anchor is exact. -/
def stripTrailKw (kw cs : List Char) : List Char :=
  if decide (kw.length < cs.length)
      && ((lowerL cs).drop (cs.length - kw.length) == kw)
      && (match cs.get? (cs.length - kw.length - 1) with
          | some c => isWS c
          | none => false) then
    trimCL (cs.take (cs.length - kw.length))
  else trimCL cs

/-- The suffix-trimming loop of strategy 1 (no early exit). -/
def stripTrailAll (kws : List (List Char)) (cs : List Char) : List Char :=
  kws.foldl (fun acc kw => stripTrailKw kw acc) cs

/-- The section_keywords list of strategy 1 (NER cleanup). -/
def sectionKeywords1 : List String :=
  ["email", "phone", "address", "name", "tel", "mobile", "fax", "candidate",
   "contact", "dob", "date"]

/-- The invalid_words list of strategy 1. -/
def invalidNerWords : List String :=
  ["email", "phone", "address", "contact", "information", "details"]

/-- Validation and cleanup applied to the first PERSON entity in strategy 1
of extract_candidate_name; none means fall through to strategy 2. -/
def cleanNerName (raw : List Char) : Option (List Char) :=
  let name := stripTrailAll (sectionKeywords1.map String.data) (trimCL raw)
  let name_words := pySplitWS name
  if 1 ≤ name_words.length ∧ name_words.length ≤ 5 ∧ 2 ≤ name.length then
    if name_words.any (fun w => invalidNerWords.any
        (fun v => lowerL w = v.data)) then none
    else some (pyTitle name)
  else none

/-- The headers_to_skip list of strategy 2. -/
def headersToSkip : List String :=
  ["curriculum vitae", "resume", "cv", "professional resume",
   "personal resume", "contact", "contact information", "objective",
   "summary", "professional summary", "personal information",
   "personal details", "address", "profile", "about me", "career objective",
   "career summary"]

/-- The skip_if_only list of strategy 2. -/
def skipIfOnly : List String :=
  ["email", "phone", "address", "linkedin", "information", "details",
   "profile", "education", "experience", "skills", "certification"]

/-- The extended section_keywords list used for token filtering in
strategy 2. -/
def sectionKeywords2 : List String :=
  ["email", "phone", "address", "name", "tel", "mobile", "fax", "candidate",
   "telephone", "contact", "cell", "gmail", "yahoo", "hotmail", "outlook"]

/-- The trailing_keywords list of strategy 2. -/
def trailingKeywords : List String :=
  ["email", "phone", "address", "contact", "tel", "mobile", "name"]

/-- The final invalid_words list of strategy 2. -/
def invalidNameWords : List String :=
  ["information", "details", "address", "personal", "contact", "profile",
   "objective", "summary", "education", "experience"]

/-- The trailing-keyword loop of strategy 2: each keyword is stripped in
order; when the whole line equals a keyword afterwards the line is emptied
and the loop breaks, which makes the caller skip the line (none). -/
def trailKwLoop : List (List Char) → List Char → Option (List Char)
  | [], cs => some cs
  | kw :: rest, cs =>
    let cs2 := stripTrailKw kw cs
    if lowerL cs2 = kw then none
    else trailKwLoop rest cs2

/-- The per-line body of strategy 2 of extract_candidate_name (one
iteration of the loop over the first 10 non-blank lines); some name means
return, none means continue with the next line. -/
def processLine (line : List Char) : Option (List Char) :=
  let lineLower := trimCL (lowerL line)
  if headersToSkip.any (fun h => lineLower = h.data) then none
  else if skipIfOnly.any (fun h => lineLower = h.data) then none
  else if pyInL ['@'] line || pyInL "http".data lineLower
      || pyInL "www.".data lineLower || pyInL ".com".data lineLower then none
  else
    let cleaned0 : Option (List Char) :=
      if pyInL [':'] line then
        let parts := splitFirst ':' line
        let label := lowerL (trimCL parts.1)
        let value := trimCL parts.2
        if pyInL "name".data label && !value.isEmpty
            && !(["company", "file", "user"].any
                  (fun w => pyInL w.data label)) then
          some value
        else none
      else some line
    match cleaned0 with
    | none => none
    | some cl0 =>
      let cl1 := trimCL (cl0.map (fun c =>
        if isWordChar c || isWS c || c = '-' || c = '.' then c else ' '))
      let filtered := (pySplitWS cl1).filter
        (fun t => !(sectionKeywords2.any (fun k => lowerL t = k.data)))
      if filtered.isEmpty then none
      else
        match trailKwLoop (trailingKeywords.map String.data)
            (joinSpace filtered) with
        | none => none
        | some cl3 =>
          if cl3.isEmpty then none
          else
            let words := pySplitWS cl3
            if 1 ≤ words.length ∧ words.length ≤ 5
                ∧ 2 ≤ cl3.length ∧ cl3.length ≤ 50 then
              if words.all (fun w =>
                  10 * (w.filter (fun c => c.isAlpha)).length
                    ≥ 7 * w.length) then
                if words.length ≤ 2 || !pyIsUpper cl3 then
                  if invalidNameWords.any
                      (fun w => pyInL w.data (lowerL cl3)) then none
                  else some (pyTitle cl3)
                else none
              else none
            else none

/-- First hit of an option-valued function over a list (the return inside
the line loop). -/
def firstSome {α β : Type} (f : α → Option β) : List α → Option β
  | [] => none
  | a :: t =>
    match f a with
    | some b => some b
    | none => firstSome f t

/-- The stripped non-blank lines of the text
([line.strip() for line in text.split("\n") if line.strip()]). -/
def nonBlankLines (text : String) : List (List Char) :=
  ((splitChar '\n' text.data).map trimCL).filter (fun l => !l.isEmpty)

/-- The character class [._0-9] collapsed to single spaces by the strategy 3
email fallback. -/
def emailClassChar (c : Char) : Bool := c = '.' || c = '_' || c.isDigit

/-- re.sub(r"[._\d]+", " ", username): each maximal run of the class is
replaced by one space (the flag records whether the previous character was
inside a run). -/
def collapseGo (inRun : Bool) : List Char → List Char
  | [] => []
  | c :: t =>
    if emailClassChar c then
      if inRun then collapseGo true t else ' ' :: collapseGo true t
    else c :: collapseGo false t

/-- CVParser.extract_candidate_name. The named entity recogniser is an
optional collaborator nerPersons giving the PERSON entities of the first
500 characters (none models an unavailable spaCy model, and the except
clause around it makes any recogniser failure equivalent to no entities);
the email regex findall over the first 1000 characters is the oracle
findEmails. Strategy order: NER, then the first 10 non-blank lines, then
the email local part, then the sentinel Unknown. -/
def extract_candidate_name (nerPersons : Option (String → List String))
    (findEmails : String → List String) (text : String) : String :=
  if (trimCL text.data).isEmpty then "Unknown"
  else
    let s1 : Option (List Char) :=
      match nerPersons with
      | none => none
      | some f =>
        match f (strOf (text.data.take 500)) with
        | [] => none
        | p :: _ => cleanNerName p.data
    match s1 with
    | some n => strOf n
    | none =>
      let lines := nonBlankLines text
      if lines.isEmpty then "Unknown"
      else
        match firstSome processLine (lines.take 10) with
        | some n => strOf n
        | none =>
          match findEmails (strOf (text.data.take 1000)) with
          | [] => "Unknown"
          | em :: _ =>
            let username := (splitFirst '@' em.data).1
            let nm := trimCL (collapseGo false username)
            if !nm.isEmpty && decide (2 ≤ nm.length) then strOf (pyTitle nm)
            else "Unknown"

/-! ### END OF DEFINITIONS MARKER -/

/-! ## Theorems -/

theorem mem_pyDedup {α : Type} [DecidableEq α] {a : α} :
    ∀ {l : List α}, a ∈ pyDedup l ↔ a ∈ l := by
  intro l
  induction l with
  | nil => simp [pyDedup]
  | cons b t ih =>
    simp only [pyDedup, List.mem_cons, List.mem_filter]
    constructor
    · rintro (rfl | ⟨h1, _⟩)
      · exact Or.inl rfl
      · exact Or.inr (ih.mp h1)
    · rintro (rfl | h)
      · exact Or.inl rfl
      · by_cases hab : a = b
        · exact Or.inl hab
        · exact Or.inr ⟨ih.mpr h, by simpa using hab⟩

/-- Claim C1 counterexample: on a file named resume.txt the top level entry
point parse_cv_file does not raise; it returns (Except.ok) the failure
record, because its except clause catches the ValueError raised by
_extract_text_from_file. -/
theorem C1_counterexample :
    parse_cv_file
      { path := "resume.txt", pdfExtract := Except.ok "text",
        docxExtract := Except.ok "text" }
      (fun _ => Except.error "boom")
      = Except.ok (failedCVRecord "Unsupported file format: .txt") := rfl

/-- Claim C1 (amended): for every file whose lower-cased extension is outside
the supported set (pdf, doc, docx) and every parsing oracle, parse_cv_file
returns, rather than raises, a record with parsing_status failed and
parsing_error equal to the unsupported format message produced inside
_extract_text_from_file. -/
theorem C1_unsupported_format_returned
    (f : FileInput) (parse : String → Except String ParsedContent)
    (h1 : strOf (lowerL (pathSuffix f.path).data) ≠ ".pdf")
    (h2 : strOf (lowerL (pathSuffix f.path).data) ≠ ".doc")
    (h3 : strOf (lowerL (pathSuffix f.path).data) ≠ ".docx") :
    parse_cv_file f parse
      = Except.ok (failedCVRecord
          ("Unsupported file format: " ++ strOf (lowerL (pathSuffix f.path).data))) := by
  unfold parse_cv_file extract_text_from_file
  simp [h1, h2, h3]

/-- Witness for C1_unsupported_format_returned at the concrete file
resume.txt. -/
theorem C1_unsupported_format_returned_witness :
    parse_cv_file
      { path := "resume.txt", pdfExtract := Except.ok "text",
        docxExtract := Except.ok "text" }
      (fun _ => Except.error "boom")
      = Except.ok (failedCVRecord
          ("Unsupported file format: "
            ++ strOf (lowerL (pathSuffix "resume.txt").data))) :=
  C1_unsupported_format_returned _ _ (by decide) (by decide) (by decide)

/-- Claim C2: whenever an exception occurs during text extraction or during
structured field parsing, parse_cv_file returns (never raises) a record with
parsing_status failed, parsing_error set to the error description, raw_text
empty and every structured field defaulted to its empty container. -/
theorem C2_failure_policy
    (f : FileInput) (parse : String → Except String ParsedContent) (e : String)
    (h : extract_text_from_file f = Except.error e
       ∨ ∃ raw, extract_text_from_file f = Except.ok raw ∧ raw ≠ ""
           ∧ parse raw = Except.error e) :
    ∃ r : CVRecord, parse_cv_file f parse = Except.ok r
      ∧ r.parsing_status = "failed" ∧ r.parsing_error = some e
      ∧ r.raw_text = "" ∧ r.personal_info = [] ∧ r.education = []
      ∧ r.work_experience = [] ∧ r.technical_skills = []
      ∧ r.soft_skills = [] ∧ r.certifications = [] ∧ r.languages = []
      ∧ r.total_experience_years = 0 := by
  refine ⟨failedCVRecord e, ?_, rfl, rfl, rfl, rfl, rfl, rfl, rfl, rfl, rfl,
    rfl, rfl⟩
  unfold parse_cv_file
  rcases h with h | ⟨raw, h1, h2, h3⟩
  · rw [h]
  · rw [h1]; simp [h2, h3]

/-- Witness for C2_failure_policy: a pdf file whose extraction raises. -/
theorem C2_failure_policy_witness :
    ∃ r : CVRecord,
      parse_cv_file
        { path := "cv.pdf", pdfExtract := Except.error "bad pdf",
          docxExtract := Except.ok "x" }
        (fun _ => Except.error "unused")
        = Except.ok r
      ∧ r.parsing_status = "failed" ∧ r.parsing_error = some "bad pdf"
      ∧ r.raw_text = "" ∧ r.personal_info = [] ∧ r.education = []
      ∧ r.work_experience = [] ∧ r.technical_skills = []
      ∧ r.soft_skills = [] ∧ r.certifications = [] ∧ r.languages = []
      ∧ r.total_experience_years = 0 :=
  C2_failure_policy _ _ _ (Or.inl rfl)

/-- Claim C3: the skill sub-score equals
min(100, match_rate * 60 + min(30, keyword_match_count * 2) + 15) with
match_rate the number of distinct matches (union of mined-keyword matches
and taxonomy skill matches) over the total number of job terms (mined
keywords plus required plus preferred skills), and is a flat 30 when there
are no job terms at all. -/
theorem C3_skills_score_formula (ek : String → List String)
    (raw_text : String) (tech : List String) (descr : String)
    (req pref : List String) :
    ((ek (pyLowerS descr)).length + req.length + pref.length = 0 →
      (analyze_skills_match ek raw_text tech descr req pref).score = 30)
    ∧ ((ek (pyLowerS descr)).length + req.length + pref.length ≠ 0 →
      (analyze_skills_match ek raw_text tech descr req pref).score
        = min 100
            (((pyDedup
                (((ek (pyLowerS descr)).filter
                    (fun k => pyInS k (pyLowerS raw_text)))
                  ++ ((req.map pyLowerS ++ pref.map pyLowerS).filter
                    (fun s => s ∈ tech.map pyLowerS
                      || pyInS s (pyLowerS raw_text))))).length : ℚ)
              / (((ek (pyLowerS descr)).length + req.length + pref.length : ℕ) : ℚ)
                * 60
              + min 30
                ((((ek (pyLowerS descr)).filter
                    (fun k => pyInS k (pyLowerS raw_text))).length : ℚ) * 2)
              + 15)) := by
  unfold analyze_skills_match
  simp only [List.length_map]
  constructor
  · intro h
    simp [h]
  · intro h
    have h1 : (1 : ℚ)
        ≤ (((ek (pyLowerS descr)).length + req.length + pref.length : ℕ) : ℚ) := by
      exact_mod_cast Nat.one_le_iff_ne_zero.mpr h
    simp only [if_neg h, max_eq_left h1]

/-- Witness for C3_skills_score_formula at a concrete candidate and job
with two job terms, one match. -/
theorem C3_skills_score_formula_witness :
    (analyze_skills_match (fun _ => ["python"]) "python dev" [] "x"
      ["python"] []).score
      = min 100
          (((pyDedup
              ((((fun (_ : String) => ["python"]) (pyLowerS "x")).filter
                  (fun k => pyInS k (pyLowerS "python dev")))
                ++ ((["python"].map pyLowerS ++ ([] : List String).map pyLowerS).filter
                  (fun s => s ∈ ([] : List String).map pyLowerS
                    || pyInS s (pyLowerS "python dev"))))).length : ℚ)
            / ((((fun (_ : String) => ["python"]) (pyLowerS "x")).length
                + (["python"] : List String).length
                + ([] : List String).length : ℕ) : ℚ) * 60
            + min 30
              (((((fun (_ : String) => ["python"]) (pyLowerS "x")).filter
                  (fun k => pyInS k (pyLowerS "python dev"))).length : ℚ) * 2)
            + 15) :=
  (C3_skills_score_formula (fun _ => ["python"]) "python dev" [] "x"
    ["python"] []).2 (by decide)

/-- Claim C4 counterexample: with candidate_years = 1, min_required = 1 and
a stored maximum of 0, the candidate satisfies years at least min and years
greater than max, so the claim mandates a score of 85, but the code, whose
truthiness test treats a maximum of 0 like an absent one, returns 100. -/
theorem C4_counterexample :
    analyze_experience_score 1 1 (some 0) = 100
    ∧ (1 : ℚ) ≥ ((1 : ℤ) : ℚ) ∧ (1 : ℚ) > ((0 : ℤ) : ℚ)
    ∧ analyze_experience_score 1 1 (some 0) ≠ 85 := by
  refine ⟨?_, by norm_num, by norm_num, ?_⟩ <;>
    norm_num [analyze_experience_score]

/-- Claim C4 (amended): the experience sub-score follows the piecewise
policy of _analyze_experience_match, where a stored maximum of 0 behaves
like an absent maximum (Python truthiness): min_required = 0 gives 40;
candidate_years at least min_required with max unset, max = 0 or
candidate_years at most max gives 100; candidate_years at least
min_required with max set, nonzero and exceeded gives 85; candidate_years
below min_required gives max(40, (candidate_years / min_required) * 80)
(for the data-model range min_required at least 0). -/
theorem C4_experience_score_policy (years : ℚ) (minR : ℤ)
    (maxR : Option ℤ) (hm : 0 ≤ minR) :
    (minR = 0 → analyze_experience_score years minR maxR = 40)
    ∧ (minR ≠ 0 → years ≥ (minR : ℚ) →
        (maxR = none ∨ maxR = some 0
          ∨ (∃ m, maxR = some m ∧ years ≤ (m : ℚ))) →
        analyze_experience_score years minR maxR = 100)
    ∧ (minR ≠ 0 → years ≥ (minR : ℚ) →
        (∃ m, maxR = some m ∧ m ≠ 0 ∧ years > (m : ℚ)) →
        analyze_experience_score years minR maxR = 85)
    ∧ (minR ≠ 0 → years < (minR : ℚ) →
        analyze_experience_score years minR maxR
          = max 40 (years / (minR : ℚ) * 80)) := by
  refine ⟨?_, ?_, ?_, ?_⟩
  · intro h
    simp [analyze_experience_score, h]
  · intro h hy hmax
    rcases hmax with rfl | rfl | ⟨m, rfl, hle⟩
    · simp [analyze_experience_score, h, hy]
    · simp [analyze_experience_score, h, hy]
    · have : ¬(m ≠ 0 ∧ years > (m : ℚ)) := by
        rintro ⟨-, hgt⟩; exact absurd hle (not_le.mpr hgt)
      simp [analyze_experience_score, h, hy, this]
  · rintro h hy ⟨m, rfl, hm0, hgt⟩
    simp [analyze_experience_score, h, hy, hm0, hgt]
  · intro h hy
    have hpos : minR > 0 := lt_of_le_of_ne hm (Ne.symm h)
    simp [analyze_experience_score, h, not_le.mpr hy, hpos]

/-- Witness for C4_experience_score_policy: with min_experience_years = 5
and no maximum, 5.0 years score 100 and 4.99 years score 79.84. -/
theorem C4_experience_score_policy_witness :
    analyze_experience_score 5 5 none = 100
    ∧ analyze_experience_score (499 / 100) 5 none = 1996 / 25 := by
  constructor
  · exact (C4_experience_score_policy 5 5 none (by norm_num)).2.1
      (by norm_num) (by norm_num) (Or.inl rfl)
  · have h := (C4_experience_score_policy (499 / 100) 5 none
      (by norm_num)).2.2.2 (by norm_num) (by norm_num)
    rw [h]
    rw [max_eq_right (by norm_num)]
    norm_num

/-- Claim C8 counterexample: on the empty list, get_analysis_statistics
returns a record without the average_score key (the early return only has
total, shortlisted, rejected), so the returned record does not contain an
average score. -/
theorem C8_counterexample :
    get_analysis_statistics []
      = { total := 0, shortlisted := 0, rejected := 0, average_score := none }
    ∧ (get_analysis_statistics []).average_score = none := ⟨rfl, rfl⟩

/-- Claim C8 (amended): for every nonempty list of analysis rows,
get_analysis_statistics returns total = length, shortlisted and rejected =
the counts of rows with the respective match_status, and average_score =
the mean overall score rounded to two decimals; for the empty list it
returns total = shortlisted = rejected = 0 with no average_score entry. -/
theorem C8_statistics (l : List AnalysisRow) :
    (l = [] → get_analysis_statistics l
      = { total := 0, shortlisted := 0, rejected := 0, average_score := none })
    ∧ (l ≠ [] →
      (get_analysis_statistics l).total = l.length
      ∧ (get_analysis_statistics l).shortlisted
          = l.countP (fun a => a.match_status = "shortlisted")
      ∧ (get_analysis_statistics l).rejected
          = l.countP (fun a => a.match_status = "rejected")
      ∧ (get_analysis_statistics l).average_score
          = some (round2
              ((l.map (fun a => a.overall_score)).sum / (l.length : ℚ)))) := by
  constructor
  · intro h
    subst h
    rfl
  · intro h
    have hpos : 0 < l.length := List.length_pos.mpr h
    unfold get_analysis_statistics
    rw [if_neg h]
    refine ⟨rfl, ?_, ?_, ?_⟩
    · simp [List.countP_eq_length_filter]
    · simp [List.countP_eq_length_filter]
    · simp [hpos]

/-- Witness for C8_statistics on a concrete two-element batch. -/
theorem C8_statistics_witness :
    (get_analysis_statistics [⟨80, "shortlisted"⟩, ⟨40, "rejected"⟩]).total
      = ([⟨80, "shortlisted"⟩, ⟨40, "rejected"⟩] : List AnalysisRow).length
    ∧ (get_analysis_statistics [⟨80, "shortlisted"⟩, ⟨40, "rejected"⟩]).shortlisted
        = ([⟨80, "shortlisted"⟩, ⟨40, "rejected"⟩] : List AnalysisRow).countP
            (fun a => a.match_status = "shortlisted")
    ∧ (get_analysis_statistics [⟨80, "shortlisted"⟩, ⟨40, "rejected"⟩]).rejected
        = ([⟨80, "shortlisted"⟩, ⟨40, "rejected"⟩] : List AnalysisRow).countP
            (fun a => a.match_status = "rejected")
    ∧ (get_analysis_statistics [⟨80, "shortlisted"⟩, ⟨40, "rejected"⟩]).average_score
        = some (round2
            ((([⟨80, "shortlisted"⟩, ⟨40, "rejected"⟩] : List AnalysisRow).map
                (fun a => a.overall_score)).sum
              / (([⟨80, "shortlisted"⟩, ⟨40, "rejected"⟩] : List AnalysisRow).length : ℚ))) :=
  (C8_statistics [⟨80, "shortlisted"⟩, ⟨40, "rejected"⟩]).2 (by decide)

/-- Claim C9: the batch analyzer returns exactly one result per input
candidate, and when scoring one candidate raises, the substituted degraded
result has overall_score 0, match_status rejected and the error text
embedded in ai_summary; the batch is never aborted or shortened. -/
theorem C9_batch_degradation (candidates : List Candidate)
    (job : JobPostingRow) (analyze : Candidate → Except String SingleAnalysis)
    (timeOf : Candidate → ℤ) :
    (analyze_candidates_for_job candidates job analyze timeOf).length
      = candidates.length
    ∧ ∀ i c e, candidates.get? i = some c → analyze c = Except.error e →
        ∃ r, (analyze_candidates_for_job candidates job analyze timeOf).get? i
            = some r
          ∧ r.overall_score = 0 ∧ r.match_status = "rejected"
          ∧ r.ai_summary = some ("Analysis failed: " ++ e)
          ∧ r.candidate_id = c.id ∧ r.job_posting_id = job.id := by
  constructor
  · exact List.length_map _ _
  · intro i c e hc he
    refine ⟨⟨c.id, job.id, 0, "rejected", 0, 0, 0, 0, [], [], [], none,
      some ("Analysis failed: " ++ e), [], [], [], none⟩, ?_, rfl, rfl, rfl,
      rfl, rfl⟩
    unfold analyze_candidates_for_job
    rw [List.get?_map, hc]
    simp only [Option.map_some']
    rw [he]

/-- Witness for C9_batch_degradation: a two-candidate batch whose second
candidate fails to analyze. -/
theorem C9_batch_degradation_witness :
    (analyze_candidates_for_job [⟨1⟩, ⟨2⟩] ⟨7, "Engineer"⟩
        (fun c => if c.id = 2 then Except.error "db down"
          else Except.ok ⟨75, "shortlisted", 80, 70, 60, 50, [], [], [], [],
            "ok", [], [], []⟩)
        (fun _ => 3)).length = ([⟨1⟩, ⟨2⟩] : List Candidate).length
    ∧ ∃ r, (analyze_candidates_for_job [⟨1⟩, ⟨2⟩] ⟨7, "Engineer"⟩
        (fun c => if c.id = 2 then Except.error "db down"
          else Except.ok ⟨75, "shortlisted", 80, 70, 60, 50, [], [], [], [],
            "ok", [], [], []⟩)
        (fun _ => 3)).get? 1 = some r
      ∧ r.overall_score = 0 ∧ r.match_status = "rejected"
      ∧ r.ai_summary = some ("Analysis failed: " ++ "db down")
      ∧ r.candidate_id = (⟨2⟩ : Candidate).id
      ∧ r.job_posting_id = (⟨7, "Engineer"⟩ : JobPostingRow).id := by
  refine ⟨(C9_batch_degradation [⟨1⟩, ⟨2⟩] ⟨7, "Engineer"⟩
      (fun c => if c.id = 2 then Except.error "db down"
        else Except.ok ⟨75, "shortlisted", 80, 70, 60, 50, [], [], [], [],
          "ok", [], [], []⟩)
      (fun _ => 3)).1, ?_⟩
  exact (C9_batch_degradation [⟨1⟩, ⟨2⟩] ⟨7, "Engineer"⟩
      (fun c => if c.id = 2 then Except.error "db down"
        else Except.ok ⟨75, "shortlisted", 80, 70, 60, 50, [], [], [], [],
          "ok", [], [], []⟩)
      (fun _ => 3)).2 1 ⟨2⟩ "db down" rfl rfl

/-- Claim C5, evaluation at the failing input: a text with the two year
tokens 2010 and 2015 and no explicit experience phrase. The claim (and the
docstring of _extract_all_years) call for the span of the 4-digit years,
2015 - 2010 = 5.0, but re.findall with the capturing group (19|20) returns
only the prefixes, so the code computes max(20, 20) - min(20, 20) = 0.0. -/
theorem C5_year_span_group_bug :
    calculate_experience_years "Worked at Acme from 2010 to 2015" = 0
    ∧ extract_all_years "Worked at Acme from 2010 to 2015" = [20, 20] := by
  exact ⟨rfl, rfl⟩

/-- Helper: the ASCII word character test is invariant under ASCII
lower-casing. -/
theorem isWordChar_lowerChar (c : Char) :
    isWordChar (lowerChar c) = isWordChar c := by
  by_cases h1 : c = 'A'
  · subst h1; decide
  by_cases h2 : c = 'B'
  · subst h2; decide
  by_cases h3 : c = 'C'
  · subst h3; decide
  by_cases h4 : c = 'D'
  · subst h4; decide
  by_cases h5 : c = 'E'
  · subst h5; decide
  by_cases h6 : c = 'F'
  · subst h6; decide
  by_cases h7 : c = 'G'
  · subst h7; decide
  by_cases h8 : c = 'H'
  · subst h8; decide
  by_cases h9 : c = 'I'
  · subst h9; decide
  by_cases h10 : c = 'J'
  · subst h10; decide
  by_cases h11 : c = 'K'
  · subst h11; decide
  by_cases h12 : c = 'L'
  · subst h12; decide
  by_cases h13 : c = 'M'
  · subst h13; decide
  by_cases h14 : c = 'N'
  · subst h14; decide
  by_cases h15 : c = 'O'
  · subst h15; decide
  by_cases h16 : c = 'P'
  · subst h16; decide
  by_cases h17 : c = 'Q'
  · subst h17; decide
  by_cases h18 : c = 'R'
  · subst h18; decide
  by_cases h19 : c = 'S'
  · subst h19; decide
  by_cases h20 : c = 'T'
  · subst h20; decide
  by_cases h21 : c = 'U'
  · subst h21; decide
  by_cases h22 : c = 'V'
  · subst h22; decide
  by_cases h23 : c = 'W'
  · subst h23; decide
  by_cases h24 : c = 'X'
  · subst h24; decide
  by_cases h25 : c = 'Y'
  · subst h25; decide
  by_cases h26 : c = 'Z'
  · subst h26; decide
  simp only [lowerChar, if_neg h1, if_neg h2, if_neg h3, if_neg h4, if_neg h5, if_neg h6, if_neg h7, if_neg h8, if_neg h9, if_neg h10, if_neg h11, if_neg h12, if_neg h13, if_neg h14, if_neg h15, if_neg h16, if_neg h17, if_neg h18, if_neg h19, if_neg h20, if_neg h21, if_neg h22, if_neg h23, if_neg h24, if_neg h25, if_neg h26]

/-- Claim C6: a skill classified as required never also appears in
preferred_skills: the final set difference in parse_job_requirements makes
the two lists disjoint, for every job description, skill database and
helper functions. -/
theorem C6_required_preferred_disjoint (svc : NLPService) (hp : JDHelpers)
    (jd : String) (s : String)
    (h : s ∈ (parse_job_requirements svc hp jd).required_skills) :
    s ∉ (parse_job_requirements svc hp jd).preferred_skills := by
  intro hmem
  simp only [parse_job_requirements, List.mem_filter, decide_eq_true_eq]
    at h hmem
  exact hmem.2 (mem_pyDedup.mp h)

/-- Witness for C6_required_preferred_disjoint on a one-skill database and
a concrete job description mentioning the skill. -/
theorem C6_required_preferred_disjoint_witness :
    "java" ∈ (parse_job_requirements ⟨["java"], []⟩
        ⟨fun _ _ => "", fun _ => [], fun _ => [], fun _ => (0, none)⟩
        "java required").required_skills
    ∧ "java" ∉ (parse_job_requirements ⟨["java"], []⟩
        ⟨fun _ _ => "", fun _ => [], fun _ => [], fun _ => (0, none)⟩
        "java required").preferred_skills :=
  ⟨by decide, C6_required_preferred_disjoint _ _ _ _ (by decide)⟩

/-- Claim C7: the skill mention predicate performs case-insensitive whole
word matching: java is not found inside javascript but is found as the
standalone word Java; and in general, for a nonempty skill made of word
characters, the predicate holds exactly when the text splits as
pre ++ mid ++ post with mid case-equal to the skill, pre empty or ending in
a non word character, and post empty or starting with one. -/
theorem C7_whole_word_matching :
    is_skill_mentioned "I know javascript well" "java" = false
    ∧ is_skill_mentioned "I use Java daily" "java" = true
    ∧ ∀ text skill : String, skill.data ≠ [] →
        (∀ c ∈ skill.data, isWordChar c = true) →
        (is_skill_mentioned text skill = true ↔
          ∃ pre mid post : List Char,
            text.data = pre ++ mid ++ post
            ∧ lowerL mid = lowerL skill.data
            ∧ (pre = [] ∨ ∃ p c, pre = p ++ [c] ∧ isWordChar c = false)
            ∧ (post = [] ∨ ∃ c p, post = c :: p ∧ isWordChar c = false)) := by
  refine ⟨by decide, by decide, ?_⟩
  intro text skill hne hword
  have hLsk : (lowerL skill.data).length = skill.data.length :=
    List.length_map _ _
  have hskpos : 0 < skill.data.length := List.length_pos.mpr hne
  obtain ⟨sh, st, hskeq⟩ : ∃ sh st, skill.data = sh :: st := by
    cases hs : skill.data with
    | nil => exact absurd hs hne
    | cons a t => exact ⟨a, t, rfl⟩
  have hsh : isWordChar sh = true :=
    hword sh (by rw [hskeq]; exact List.mem_cons_self _ _)
  obtain ⟨si, sc, hskconc⟩ : ∃ si sc, skill.data = si ++ [sc] := by
    rcases List.eq_nil_or_concat skill.data with hs | ⟨si, sc, hs⟩
    · exact absurd hs hne
    · exact ⟨si, sc, hs.trans (List.concat_eq_append _ _)⟩
  have hsc : isWordChar sc = true := hword sc (by simp [hskconc])
  constructor
  · intro h
    unfold is_skill_mentioned at h
    obtain ⟨i, hir, hm⟩ := List.any_eq_true.mp h
    rw [List.mem_range] at hir
    unfold matchAtCI at hm
    rw [Bool.and_eq_true, Bool.and_eq_true, beq_iff_eq] at hm
    obtain ⟨⟨b1, b2⟩, b3⟩ := hm
    have hile : i ≤ text.data.length := Nat.lt_succ_iff.mp hir
    set L := (lowerL skill.data).length with hLdef
    set mid := (text.data.drop i).take L with hmiddef
    have hmidlow : lowerL mid = lowerL skill.data := b2
    have hmidlen : mid.length = L := by
      have hc := congrArg List.length hmidlow
      simp only [lowerL, List.length_map] at hc
      rw [hc]
      exact hLsk.symm
    have hLpos : 0 < L := by rw [hLsk]; exact hskpos
    have hprelen : (text.data.take i).length = i := by
      rw [List.length_take]
      exact Nat.min_eq_left hile
    have hsplit : text.data
        = text.data.take i ++ (mid ++ text.data.drop (i + L)) := by
      conv_lhs => rw [← List.take_append_drop i text.data]
      congr 1
      conv_lhs => rw [← List.take_append_drop L (text.data.drop i)]
      congr 1
      rw [List.drop_drop]
    obtain ⟨mh, mt, hmideq⟩ : ∃ mh mt, mid = mh :: mt := by
      cases hm : mid with
      | nil => rw [hm] at hmidlen; simp at hmidlen; omega
      | cons a t => exact ⟨a, t, rfl⟩
    obtain ⟨mi, mc, hmidconc⟩ : ∃ mi mc, mid = mi ++ [mc] := by
      rcases List.eq_nil_or_concat mid with hm | ⟨mi, mc, hm⟩
      · rw [hm] at hmidlen; simp at hmidlen; omega
      · exact ⟨mi, mc, hm.trans (List.concat_eq_append _ _)⟩
    have hmh : lowerChar mh = lowerChar sh := by
      have hx := hmidlow
      rw [hmideq, hskeq] at hx
      simp only [lowerL, List.map_cons] at hx
      injection hx
    have hmhw : isWordChar mh = true := by
      rw [← isWordChar_lowerChar mh, hmh, isWordChar_lowerChar]; exact hsh
    have hmc : lowerChar mc = lowerChar sc := by
      have hx := hmidlow
      rw [hmidconc, hskconc] at hx
      simp only [lowerL, List.map_append, List.map_cons, List.map_nil] at hx
      have h2 := congrArg List.getLast? hx
      simp only [List.getLast?_concat, Option.some.injEq] at h2
      exact h2
    have hmcw : isWordChar mc = true := by
      rw [← isWordChar_lowerChar mc, hmc, isWordChar_lowerChar]; exact hsc
    have hget_i : text.data.get? i = some mh := by
      conv_lhs => rw [hsplit]
      rw [List.get?_append_right hprelen.le, hprelen, Nat.sub_self, hmideq]
      rfl
    have hword_i : wordAt text.data i = true := by
      unfold wordAt; rw [hget_i]; exact hmhw
    have hleft : (decide (0 < i) && wordAt text.data (i - 1)) = false := by
      unfold boundAt at b1
      rw [hword_i] at b1
      cases hx : (decide (0 < i) && wordAt text.data (i - 1)) with
      | false => rfl
      | true => rw [hx] at b1; simp at b1
    have hpreside : text.data.take i = []
        ∨ ∃ p c, text.data.take i = p ++ [c] ∧ isWordChar c = false := by
      by_cases hi0 : i = 0
      · left; rw [hi0]; rfl
      · right
        have hipos : 0 < i := Nat.pos_of_ne_zero hi0
        have hwfalse : wordAt text.data (i - 1) = false := by
          rcases Bool.and_eq_false_iff.mp hleft with hx | hx
          · simp [hipos] at hx
          · exact hx
        have hprenil : text.data.take i ≠ [] := by
          intro hnil; rw [hnil] at hprelen; simp at hprelen; omega
        rcases List.eq_nil_or_concat (text.data.take i) with hnil | ⟨p, c, hpc0⟩
        · exact absurd hnil hprenil
        · have hpc := hpc0.trans (List.concat_eq_append _ _)
          refine ⟨p, c, hpc, ?_⟩
          have hplen : p.length = i - 1 := by
            have hx := hprelen; rw [hpc] at hx; simp at hx; omega
          have hgetc : text.data.get? (i - 1) = some c := by
            conv_lhs => rw [hsplit]
            rw [List.get?_append (by rw [hprelen]; omega)]
            rw [hpc, ← hplen, List.get?_concat_length]
          unfold wordAt at hwfalse
          rw [hgetc] at hwfalse
          exact hwfalse
    have hmilen : mi.length = L - 1 := by
      have hx := hmidlen; rw [hmidconc] at hx; simp at hx; omega
    have hword_last : wordAt text.data (i + L - 1) = true := by
      have hgetmc : text.data.get? (i + L - 1) = some mc := by
        have hsplit2 : text.data
            = (text.data.take i ++ mi) ++ ([mc] ++ text.data.drop (i + L)) := by
          conv_lhs => rw [hsplit]
          rw [hmidconc]
          simp [List.append_assoc]
        have hlen2 : (text.data.take i ++ mi).length = i + L - 1 := by
          simp only [List.length_append, hprelen, hmilen]
          omega
        conv_lhs => rw [hsplit2]
        rw [List.get?_append_right hlen2.le, hlen2, Nat.sub_self]
        rfl
      unfold wordAt; rw [hgetmc]; exact hmcw
    have hright : wordAt text.data (i + L) = false := by
      unfold boundAt at b3
      have hl : (decide (0 < i + L) && wordAt text.data (i + L - 1)) = true := by
        have h0 : 0 < i + L := by omega
        simp [h0, hword_last]
      rw [hl] at b3
      cases hx : wordAt text.data (i + L) with
      | false => rfl
      | true => rw [hx] at b3; simp at b3
    have hpostside : text.data.drop (i + L) = []
        ∨ ∃ c p, text.data.drop (i + L) = c :: p ∧ isWordChar c = false := by
      cases hd : text.data.drop (i + L) with
      | nil => exact Or.inl rfl
      | cons pc pt =>
        right
        refine ⟨pc, pt, rfl, ?_⟩
        have hsplitA : text.data
            = (text.data.take i ++ mid) ++ text.data.drop (i + L) := by
          conv_lhs => rw [hsplit]
          exact (List.append_assoc _ _ _).symm
        have hlen3 : (text.data.take i ++ mid).length = i + L := by
          simp only [List.length_append, hprelen, hmidlen]
        have hgetpc : text.data.get? (i + L) = some pc := by
          conv_lhs => rw [hsplitA]
          rw [List.get?_append_right hlen3.le, hlen3, Nat.sub_self, hd]
          rfl
        unfold wordAt at hright
        rw [hgetpc] at hright
        exact hright
    refine ⟨text.data.take i, mid, text.data.drop (i + L), ?_, hmidlow,
      hpreside, hpostside⟩
    conv_lhs => rw [hsplit]
    exact (List.append_assoc _ _ _).symm
  · rintro ⟨pre, mid, post, hdec, hlow, hpre, hpost⟩
    set L := (lowerL skill.data).length with hLdef
    have hmidlen : mid.length = L := by
      have hc := congrArg List.length hlow
      simp only [lowerL, List.length_map] at hc
      rw [hc]
      exact hLsk.symm
    have hLpos : 0 < L := by rw [hLsk]; exact hskpos
    obtain ⟨mh, mt, hmideq⟩ : ∃ mh mt, mid = mh :: mt := by
      cases hm : mid with
      | nil => rw [hm] at hmidlen; simp at hmidlen; omega
      | cons a t => exact ⟨a, t, rfl⟩
    obtain ⟨mi, mc, hmidconc⟩ : ∃ mi mc, mid = mi ++ [mc] := by
      rcases List.eq_nil_or_concat mid with hm | ⟨mi, mc, hm⟩
      · rw [hm] at hmidlen; simp at hmidlen; omega
      · exact ⟨mi, mc, hm.trans (List.concat_eq_append _ _)⟩
    have hmh : lowerChar mh = lowerChar sh := by
      have hx := hlow
      rw [hmideq, hskeq] at hx
      simp only [lowerL, List.map_cons] at hx
      injection hx
    have hmhw : isWordChar mh = true := by
      rw [← isWordChar_lowerChar mh, hmh, isWordChar_lowerChar]; exact hsh
    have hmc : lowerChar mc = lowerChar sc := by
      have hx := hlow
      rw [hmidconc, hskconc] at hx
      simp only [lowerL, List.map_append, List.map_cons, List.map_nil] at hx
      have h2 := congrArg List.getLast? hx
      simp only [List.getLast?_concat, Option.some.injEq] at h2
      exact h2
    have hmcw : isWordChar mc = true := by
      rw [← isWordChar_lowerChar mc, hmc, isWordChar_lowerChar]; exact hsc
    unfold is_skill_mentioned
    rw [List.any_eq_true]
    refine ⟨pre.length, ?_, ?_⟩
    · rw [List.mem_range]
      have hx : text.data.length = pre.length + (mid.length + post.length) := by
        rw [hdec]; simp [List.length_append]
      omega
    · unfold matchAtCI
      rw [← hLdef]
      rw [Bool.and_eq_true, Bool.and_eq_true]
      have hget : text.data.get? pre.length = some mh := by
        conv_lhs => rw [hdec]
        rw [List.get?_append (by simp only [List.length_append]; omega)]
        rw [List.get?_append_right (le_refl pre.length), Nat.sub_self, hmideq]
        rfl
      have hword_i : wordAt text.data pre.length = true := by
        unfold wordAt; rw [hget]; exact hmhw
      refine ⟨⟨?_, ?_⟩, ?_⟩
      · unfold boundAt
        rw [hword_i]
        have hleft : (decide (0 < pre.length)
            && wordAt text.data (pre.length - 1)) = false := by
          rcases hpre with rfl | ⟨p, c, hpc, hcw⟩
          · simp
          · have hplen : pre.length = p.length + 1 := by rw [hpc]; simp
            have hgetc : text.data.get? (pre.length - 1) = some c := by
              conv_lhs => rw [hdec]
              rw [List.get?_append (by simp only [List.length_append]; omega)]
              rw [List.get?_append (by omega)]
              have hx : pre.length - 1 = p.length := by omega
              rw [hx, hpc, List.get?_concat_length]
            have hwf : wordAt text.data (pre.length - 1) = false := by
              unfold wordAt; rw [hgetc]; exact hcw
            rw [hwf]
            simp
        rw [hleft]
        rfl
      · rw [beq_iff_eq]
        have hdrop : text.data.drop pre.length = mid ++ post := by
          conv_lhs => rw [hdec]
          rw [List.append_assoc, List.drop_left]
        rw [hdrop, ← hmidlen, List.take_left]
        exact hlow
      · unfold boundAt
        have hmilen : mi.length = L - 1 := by
          have hx := hmidlen; rw [hmidconc] at hx; simp at hx; omega
        have hsplit2 : text.data = (pre ++ mi) ++ ([mc] ++ post) := by
          conv_lhs => rw [hdec]
          rw [hmidconc]
          simp [List.append_assoc]
        have hlen2 : (pre ++ mi).length = pre.length + L - 1 := by
          simp only [List.length_append, hmilen]
          omega
        have hgetmc : text.data.get? (pre.length + L - 1) = some mc := by
          conv_lhs => rw [hsplit2]
          rw [List.get?_append_right hlen2.le, hlen2, Nat.sub_self]
          rfl
        have hlast : wordAt text.data (pre.length + L - 1) = true := by
          unfold wordAt; rw [hgetmc]; exact hmcw
        have h0 : 0 < pre.length + L := by omega
        have hr : wordAt text.data (pre.length + L) = false := by
          have hlen3 : (pre ++ mid).length = pre.length + L := by
            simp only [List.length_append, hmidlen]
          have hgp : text.data.get? (pre.length + L) = post.get? 0 := by
            conv_lhs => rw [hdec]
            rw [List.get?_append_right hlen3.le, hlen3, Nat.sub_self]
          unfold wordAt
          rw [hgp]
          rcases hpost with rfl | ⟨pc, pt, hpc, hcw⟩
          · rfl
          · rw [hpc]
            exact hcw
        rw [hr, hlast]
        simp [h0]

/-- Witness for the universal part of C7_whole_word_matching at a concrete
text and skill. -/
theorem C7_whole_word_matching_witness :
    is_skill_mentioned "uses java here" "java" = true ↔
      ∃ pre mid post : List Char,
        "uses java here".data = pre ++ mid ++ post
        ∧ lowerL mid = lowerL "java".data
        ∧ (pre = [] ∨ ∃ p c, pre = p ++ [c] ∧ isWordChar c = false)
        ∧ (post = [] ∨ ∃ c p, post = c :: p ∧ isWordChar c = false) :=
  C7_whole_word_matching.2.2 "uses java here" "java" (by decide) (by decide)

/-- Helper: an empty strip means every character was whitespace. -/
theorem trimCL_nil_all_ws {cs : List Char} (h : trimCL cs = []) :
    ∀ c ∈ cs, isWS c = true := by
  unfold trimCL trimRightCL at h
  rw [List.reverse_eq_nil_iff, List.dropWhile_eq_nil_iff] at h
  intro c hc
  by_cases hw : isWS c = true
  · exact hw
  · exfalso
    have hsplit := List.takeWhile_append_dropWhile (p := isWS) (l := cs)
    rw [← hsplit] at hc
    rcases List.mem_append.mp hc with h1 | h2
    · exact hw (List.mem_takeWhile_imp h1)
    · exact hw (h c (List.mem_reverse.mpr h2))

/-- Helper: splitChar never returns the empty list of pieces. -/
theorem splitChar_ne_nil (sep : Char) : ∀ cs, splitChar sep cs ≠ [] := by
  intro cs
  cases cs with
  | nil => simp [splitChar]
  | cons a t =>
    simp only [splitChar]
    split <;> split <;> simp

/-- Helper: every character of every piece of splitChar is a character of
the input. -/
theorem splitChar_sub {sep : Char} :
    ∀ {cs l : List Char}, l ∈ splitChar sep cs → ∀ c ∈ l, c ∈ cs := by
  intro cs
  induction cs with
  | nil =>
    intro l hl c hc
    simp [splitChar] at hl
    subst hl
    simp at hc
  | cons a t ih =>
    intro l hl c hc
    cases hsp : splitChar sep t with
    | nil => exact absurd hsp (splitChar_ne_nil sep t)
    | cons r rs =>
      simp only [splitChar, hsp] at hl
      by_cases hc0 : a = sep
      · rw [if_pos hc0] at hl
        rcases List.mem_cons.mp hl with rfl | hl2
        · simp at hc
        · have := ih (by rw [hsp]; exact hl2) c hc
          exact List.mem_cons_of_mem _ this
      · rw [if_neg hc0] at hl
        rcases List.mem_cons.mp hl with rfl | hl2
        · rcases List.mem_cons.mp hc with rfl | hcr
          · exact List.mem_cons_self _ _
          · have := ih (by rw [hsp]; exact List.mem_cons_self _ _) c hcr
            exact List.mem_cons_of_mem _ this
        · have := ih (by rw [hsp]; exact List.mem_cons_of_mem _ hl2) c hc
          exact List.mem_cons_of_mem _ this

/-- Helper: a text with a non-blank line is not blank. -/
theorem nonBlank_not_blank {text : String}
    (h : nonBlankLines text ≠ []) : ¬(trimCL text.data).isEmpty = true := by
  intro hblank
  rw [List.isEmpty_iff] at hblank
  have hws := trimCL_nil_all_ws hblank
  apply h
  unfold nonBlankLines
  rw [List.filter_eq_nil]
  intro l hl
  obtain ⟨piece, hpm, rfl⟩ := List.mem_map.mp hl
  have hall : ∀ c ∈ piece, isWS c = true :=
    fun c hc => hws c (splitChar_sub hpm c hc)
  have h0 : trimCL piece = [] := by
    simp [trimCL, trimRightCL, List.dropWhile_eq_nil_iff.mpr hall]
  simp [h0]

/-- Claim C10 counterexample: a text whose second non-blank line is
Name: Jane Smith, with no entity recogniser available, on which
extract_candidate_name returns the first line instead: the line scan
accepts the first acceptable line, so the claim fails as a universal
statement over all such texts. -/
theorem C10_counterexample :
    extract_candidate_name none (fun _ => []) "Bob Jones\nName: Jane Smith"
      = "Bob Jones"
    ∧ ("Bob Jones" : String) ≠ "Jane Smith" := ⟨rfl, by decide⟩

/-- Claim C10 (amended): when additionally every earlier non-blank line is
skipped - here, the first non-blank line is one of the recognised headers
such as curriculum vitae - and the second non-blank line is
Name: Jane Smith, extract_candidate_name with no entity recogniser
available returns Jane Smith, extracting only the value of the
label-with-name line. -/
theorem C10_label_value_line (text : String)
    (findEmails : String → List String) (hline : List Char)
    (rest : List (List Char))
    (hlines : nonBlankLines text = hline :: "Name: Jane Smith".data :: rest)
    (hmem : hline ∈ headersToSkip.map String.data) :
    extract_candidate_name none findEmails text = "Jane Smith" := by
  have hall : ∀ l ∈ headersToSkip.map String.data, processLine l = none := by
    decide
  have hname : processLine "Name: Jane Smith".data
      = some "Jane Smith".data := by decide
  have hne : nonBlankLines text ≠ [] := by rw [hlines]; simp
  have htrim := nonBlank_not_blank hne
  unfold extract_candidate_name
  rw [if_neg htrim]
  simp only [hlines]
  rw [List.take_succ_cons, List.take_succ_cons]
  simp only [firstSome, hall hline hmem, hname]
  rfl

/-- Witness for C10_label_value_line at the concrete text
curriculum vitae, newline, Name: Jane Smith. -/
theorem C10_label_value_line_witness :
    extract_candidate_name none (fun _ => [])
      "curriculum vitae\nName: Jane Smith" = "Jane Smith" :=
  C10_label_value_line "curriculum vitae\nName: Jane Smith" (fun _ => [])
    "curriculum vitae".data [] (by decide) (by decide)
